import Mathlib

/-!
Shallow embedding of `cpu.go` from the i8086 repository (an 8086-class CPU
emulator), together with theorems checking the natural-language specification
against the code.

Machine integers are modelled as `Nat` with explicit `% 2^w` wherever the Go
code performs fixed-width arithmetic that can overflow (`uint16` increments,
`uint8`/`uint16` conversions, shifts).  Go's bitwise `&`, `|`, `>>`, `<<`
become `&&&`, `|||`, `>>>`, `<<<` on `Nat`.  Memory, a Go array
`[1048576]byte`, is modelled as a function `Nat → Nat`; a Go panic caused by
an out-of-range array write is modelled as `Option.none`.
-/

namespace I8086

/-- Size of the memory array: `Memory [1048576]byte` in `CPU`. -/
def memSize : Nat := 1048576

/-- The `CPU` struct from `cpu.go`.  All register fields are `uint16` in Go,
modelled as `Nat` (invariants `< 65536` appear as hypotheses where needed);
`Memory [1048576]byte` is modelled as a function from addresses to byte
values. -/
structure CPU where
  PC : Nat
  SP : Nat
  AX : Nat
  BX : Nat
  CX : Nat
  DX : Nat
  SI : Nat
  DI : Nat
  BP : Nat
  CS : Nat
  DS : Nat
  ES : Nat
  SS : Nat
  IP : Nat
  FL : Nat
  Flag : Nat
  programSize : Nat
  Memory : Nat → Nat

/-- `NewCPU()` returns `&CPU{}`: every field zero, memory zeroed. -/
def NewCPU : CPU :=
  { PC := 0, SP := 0, AX := 0, BX := 0, CX := 0, DX := 0
    SI := 0, DI := 0, BP := 0, CS := 0, DS := 0, ES := 0
    SS := 0, IP := 0, FL := 0, Flag := 0
    programSize := 0, Memory := fun _ => 0 }

/-- `getAL`: `uint8(c.AX & 0xFF)` (the mask already truncates to 8 bits). -/
def getAL (c : CPU) : Nat := c.AX &&& 0xFF

/-- `getAH`: `uint8(c.AX >> 8)`; the `uint8` conversion truncates mod 256. -/
def getAH (c : CPU) : Nat := (c.AX >>> 8) % 256

/-- `getBL`: `uint8(c.BX & 0xFF)`. -/
def getBL (c : CPU) : Nat := c.BX &&& 0xFF

/-- `getBH`: `uint8(c.BX >> 8)`. -/
def getBH (c : CPU) : Nat := (c.BX >>> 8) % 256

/-- `getCL`: `uint8(c.CX & 0xFF)`. -/
def getCL (c : CPU) : Nat := c.CX &&& 0xFF

/-- `getCH`: `uint8(c.CX >> 8)`. -/
def getCH (c : CPU) : Nat := (c.CX >>> 8) % 256

/-- `getDL`: `uint8(c.DX & 0xFF)`. -/
def getDL (c : CPU) : Nat := c.DX &&& 0xFF

/-- `getDH`: `uint8(c.DX >> 8)`. -/
def getDH (c : CPU) : Nat := (c.DX >>> 8) % 256

/-- `setAL(c, v)`: `c.AX = (c.AX & 0xFF00) | uint16(v)`; the parameter `v` is
a `uint8`, so theorems carry the hypothesis `v < 256`. -/
def setAL (c : CPU) (v : Nat) : CPU := { c with AX := (c.AX &&& 0xFF00) ||| v }

/-- `setAH(c, v)`: `c.AX = (c.AX & 0x00FF) | (uint16(v) << 8)`; the shift is
`uint16` arithmetic, hence the `% 65536`. -/
def setAH (c : CPU) (v : Nat) : CPU :=
  { c with AX := (c.AX &&& 0x00FF) ||| ((v <<< 8) % 65536) }

/-- `setBL(c, v)`: `c.BX = (c.BX & 0xFF00) | uint16(v)`. -/
def setBL (c : CPU) (v : Nat) : CPU := { c with BX := (c.BX &&& 0xFF00) ||| v }

/-- `setBH(c, v)`: `c.BX = (c.BX & 0x00FF) | (uint16(v) << 8)`. -/
def setBH (c : CPU) (v : Nat) : CPU :=
  { c with BX := (c.BX &&& 0x00FF) ||| ((v <<< 8) % 65536) }

/-- `setCL(c, v)`: `c.CX = (c.CX & 0xFF00) | uint16(v)`. -/
def setCL (c : CPU) (v : Nat) : CPU := { c with CX := (c.CX &&& 0xFF00) ||| v }

/-- `setCH(c, v)`: `c.CX = (c.CX & 0x00FF) | (uint16(v) << 8)`. -/
def setCH (c : CPU) (v : Nat) : CPU :=
  { c with CX := (c.CX &&& 0x00FF) ||| ((v <<< 8) % 65536) }

/-- `setDL(c, v)`: `c.DX = (c.DX & 0xFF00) | uint16(v)`. -/
def setDL (c : CPU) (v : Nat) : CPU := { c with DX := (c.DX &&& 0xFF00) ||| v }

/-- `setDH(c, v)`: `c.DX = (c.DX & 0x00FF) | (uint16(v) << 8)`. -/
def setDH (c : CPU) (v : Nat) : CPU :=
  { c with DX := (c.DX &&& 0x00FF) ||| ((v <<< 8) % 65536) }

/-- The `mnemonics` map: `map[uint8]string{0b100010: "MOV"}`.  Looking up a
key that is absent yields `none` (Go would yield the zero value `""` with
`ok = false`). -/
def mnemonics (opcode : Nat) : Option String :=
  if opcode = 0b100010 then some "MOV" else none

/-- `calcLen(opcode, d, w, mod, rm)` from `cpu.go`: for opcode `0b100010` it
returns `1`, or `2` when `w == 1`; every other opcode returns the
`invalid opcode` error.  The parameters `d`, `mod` and `rm` are accepted but
never read by the Go code. -/
def calcLen (opcode d w mod rm : Nat) : Except String Nat :=
  if opcode = 0b100010 then
    Except.ok (if w = 1 then 2 else 1)
  else
    Except.error "invalid opcode"

/-- The fields that `DecodeInatruction` computes into local variables (and
prints).  The Go `Instruction` struct itself is empty — it declares no fields
at all — so these values never reach the function's return value; this record
exposes the locals so that theorems can speak about them. -/
structure DecodedFields where
  opcode : Nat
  d : Nat
  w : Nat
  mod : Nat
  reg : Nat
  rm : Nat
deriving DecidableEq, Repr

/-- `DecodeInatruction` (sic) from `cpu.go`: fetch the byte at `PC`, advance
`PC` (a `uint16`, hence `% 65536`), split the byte into opcode/d/w; fetch the
next byte, advance `PC` again, split it into mod/reg/rm; print; return
`(Instruction{}, nil)`.  The model returns the computed fields and the updated
CPU; the error component is always `Except.ok`, mirroring the unconditional
`nil` error. -/
def DecodeInatruction (c : CPU) : Except String (DecodedFields × CPU) :=
  let memory := c.Memory c.PC
  let c1 : CPU := { c with PC := (c.PC + 1) % 65536 }
  let opcode := (memory &&& 0xFC) >>> 2
  let d := (memory &&& 0x2) >>> 1
  let w := memory &&& 0x1
  let memory2 := c1.Memory c1.PC
  let c2 : CPU := { c1 with PC := (c1.PC + 1) % 65536 }
  let mod := (memory2 &&& 0xC0) >>> 6
  let reg := (memory2 &&& 0x38) >>> 3
  let rm := memory2 &&& 0x07
  Except.ok (⟨opcode, d, w, mod, reg, rm⟩, c2)

/-- One iteration of the copy loop in `LoadProgram`: `c.Memory[i] = b[i]`.
Go bounds-checks the array write; an index at or beyond `memSize` panics,
modelled as `none`. -/
def writeMem (m : Nat → Nat) (i v : Nat) : Option (Nat → Nat) :=
  if i < memSize then some (fun a => if a = i then v else m a) else none

/-- The copy loop of `LoadProgram`: `for ; i < len(b); i++ { c.Memory[i] = b[i] }`,
returning the final memory and the final `i` (stored into `programSize`), or
`none` if an out-of-range write panics. -/
def copyLoop (b : List Nat) (m : Nat → Nat) (i : Nat) : Option ((Nat → Nat) × Nat) :=
  match b with
  | [] => some (m, i)
  | v :: rest =>
    match writeMem m i v with
    | some m2 => copyLoop rest m2 (i + 1)
    | none => none

/-- `LoadProgram` from `cpu.go`, with the file I/O out of scope: `b` stands
for the bytes `io.ReadAll` produced.  The Go code copies them into memory
starting at index 0 with no bounds check of its own and sets `programSize`;
`none` models the runtime panic on an out-of-range array write. -/
def LoadProgram (c : CPU) (b : List Nat) : Option CPU :=
  (copyLoop b c.Memory 0).map fun mi => { c with Memory := mi.1, programSize := mi.2 }

/-- `Run` from `cpu.go` is `for { }` — an empty infinite loop (the fetch is
commented out and the `return nil` after the loop is unreachable).  Fuel-
indexed model: `some r` would mean the loop exited with result `r` within the
given fuel; the body does nothing and never exits, so each step just burns
fuel. -/
def RunFuel (c : CPU) : Nat → Option (Except String Unit)
  | 0 => none
  | n + 1 => RunFuel c n

/-- A one-instruction program starting with `0x88 0x06`: opcode byte
`0b10001000` (opcode-class `100010`, D = 0, W = 0) followed by the mode byte
`0b00000110` (mode = 00, reg = 000, r/m = 110 — the direct-address
exception case). -/
def mov88 : CPU :=
  { NewCPU with Memory := fun a => if a = 0 then 0x88 else if a = 1 then 0x06 else 0 }

/-- A CPU whose program counter sits at the top of the 16-bit range. -/
def cpuFF : CPU := { NewCPU with PC := 0xFFFF }

/-! ## Arithmetic helper lemmas about the bit operations used by the code -/

set_option maxRecDepth 4000

/-- Byte-level values of the field extractions performed by
`DecodeInatruction`, expressed through division and remainder. -/
theorem byteExtract : ∀ b, b < 256 →
    ((b &&& 0xFC) >>> 2 = b / 4 ∧ (b &&& 0x2) >>> 1 = b / 2 % 2 ∧
     b &&& 0x1 = b % 2 ∧ (b &&& 0xC0) >>> 6 = b / 64 ∧
     (b &&& 0x38) >>> 3 = b / 8 % 8 ∧ b &&& 0x07 = b % 8) := by decide

/-- Masking with `0xFF` keeps the low byte. -/
theorem and_FF_eq (x : Nat) : x &&& 0xFF = x % 256 := by
  have e2 : (0xFF : Nat) = 2 ^ 8 - 1 := by norm_num
  rw [e2, Nat.and_pow_two_sub_one_eq_mod]

/-- Masking with `0xFF00` keeps the second byte in place. -/
theorem and_FF00_eq (x : Nat) : x &&& 0xFF00 = x / 256 % 256 * 256 := by
  have h : x &&& 0xFF00 = ((x >>> 8) &&& 0xFF) <<< 8 := by
    apply Nat.eq_of_testBit_eq
    intro i
    simp only [Nat.testBit_and, Nat.testBit_shiftLeft, Nat.testBit_shiftRight]
    rcases Nat.lt_or_ge i 16 with hi | hi
    · interval_cases i <;> simp [Nat.testBit_to_div_mod]
    · have t1 : Nat.testBit 0xFF00 i = false := by
        apply Nat.testBit_lt_two_pow
        calc (0xFF00 : Nat) < 2 ^ 16 := by norm_num
          _ ≤ 2 ^ i := Nat.pow_le_pow_right (by norm_num) hi
      have t2 : Nat.testBit 0xFF (i - 8) = false := by
        apply Nat.testBit_lt_two_pow
        calc (0xFF : Nat) < 2 ^ 8 := by norm_num
          _ ≤ 2 ^ (i - 8) := Nat.pow_le_pow_right (by norm_num) (by omega)
      simp [t1, t2]
  rw [h, and_FF_eq, Nat.shiftRight_eq_div_pow, Nat.shiftLeft_eq]

/-- `|||` of a multiple of 256 with a byte value is plain addition. -/
theorem or_mul256 (a b : Nat) (hb : b < 256) : 256 * a ||| b = 256 * a + b := by
  have hb8 : b < 2 ^ 8 := hb
  exact (Nat.mul_add_lt_is_or hb8 a).symm

/-- Value of the low-byte write pattern `(x & 0xFF00) | v` used by `setAL`,
`setBL`, `setCL`, `setDL`. -/
theorem spliceLow (x v : Nat) (hv : v < 256) :
    (x &&& 0xFF00) ||| v = x / 256 % 256 * 256 + v := by
  rw [and_FF00_eq, Nat.mul_comm, or_mul256 _ _ hv, Nat.mul_comm]

/-- Value of the high-byte write pattern `(x & 0x00FF) | (v << 8)` used by
`setAH`, `setBH`, `setCH`, `setDH`. -/
theorem spliceHigh (x v : Nat) (hv : v < 256) :
    (x &&& 0x00FF) ||| ((v <<< 8) % 65536) = v * 256 + x % 256 := by
  rw [and_FF_eq, Nat.shiftLeft_eq]
  have h1 : v * 2 ^ 8 % 65536 = v * 256 := by
    rw [Nat.mod_eq_of_lt (by omega)]
    norm_num
  rw [h1, Nat.lor_comm, Nat.mul_comm, or_mul256 _ _ (Nat.mod_lt _ (by norm_num)),
    Nat.mul_comm]

/-- Shifting right by 8 is division by 256. -/
theorem shr8_eq (x : Nat) : x >>> 8 = x / 256 :=
  Nat.shiftRight_eq_div_pow x 8

/-- If the copy loop of `LoadProgram` still has bytes left when its index
reaches the end of memory, it hits the out-of-range write and panics. -/
theorem copyLoop_oob : ∀ (b : List Nat) (m : Nat → Nat) (i : Nat),
    i ≤ memSize → memSize < i + b.length → copyLoop b m i = none := by
  intro b
  induction b with
  | nil =>
    intro m i h1 h2
    simp only [List.length_nil] at h2
    omega
  | cons v rest ih =>
    intro m i h1 h2
    simp only [copyLoop, writeMem]
    by_cases hi : i < memSize
    · simp only [hi, if_true]
      exact ih _ _ (by omega) (by simp only [List.length_cons] at h2; omega)
    · simp only [hi, if_false]

/-! ## Claim theorems -/

/-- C2: the claim says the computed total encoded length is base 2 bytes plus
MOD/R-M displacement bytes plus immediate bytes (plus one when W selects a
word immediate).  The code's `calcLen` instead returns `1` (or `2` when
`w = 1`) for opcode-class `0b100010`, never adding the 2-byte base, and its
result is completely independent of `mod` and `rm`, so the MOD/R-M
displacement rule contributes nothing: at `mod = 00`, `rm = 000`, `w = 0` the
claim dictates length 2, but the code yields 1. -/
theorem calcLen_not_encoded_length :
    calcLen 0b100010 0 0 0b00 0b000 = Except.ok 1 ∧
    calcLen 0b100010 0 1 0b00 0b000 = Except.ok 2 ∧
    (∀ mod rm mod2 rm2, calcLen 0b100010 0 0 mod rm = calcLen 0b100010 0 0 mod2 rm2) :=
  ⟨rfl, rfl, fun _ _ _ _ => rfl⟩

/-- C3: the claim says decoding fails with an UnsupportedOpcode error whenever
the fetched opcode-class has no Opcode Table entry.  The code's
`DecodeInatruction` unconditionally returns `(Instruction{}, nil)` — it never
consults an error path (the `invalid opcode` error lives only in `calcLen`,
which it does not call).  Concretely, on the all-zero machine the fetched
opcode-class is 0, `mnemonics` has no entry for it, yet decoding succeeds. -/
theorem decode_never_fails :
    (∀ c : CPU, ∃ r, DecodeInatruction c = Except.ok r) ∧
    mnemonics 0 = none ∧
    DecodeInatruction NewCPU = Except.ok (⟨0, 0, 0, 0, 0, 0⟩, { NewCPU with PC := 2 }) :=
  ⟨fun c => ⟨_, rfl⟩, rfl, rfl⟩

/-- C4: the claim says loading an over-long image returns a LoadError with
memory untouched and no out-of-range write.  `LoadProgram`'s copy loop has no
bounds check of its own: on an input one byte longer than memory it runs its
index up to `memSize` and performs an out-of-range array write — a runtime
panic (modelled as `none`), not a returned LoadError. -/
theorem loadProgram_oob_panics :
    LoadProgram NewCPU (List.replicate (memSize + 1) 0) = none := by
  have hlen : (List.replicate (memSize + 1) 0).length = memSize + 1 :=
    List.length_replicate ..
  have hlt : memSize < 0 + (memSize + 1) := by omega
  have harg : memSize < 0 + (List.replicate (memSize + 1) 0).length :=
    Eq.mpr (congrArg (fun x => memSize < 0 + x) hlen) hlt
  have h : copyLoop (List.replicate (memSize + 1) 0) NewCPU.Memory 0 = none :=
    copyLoop_oob _ _ _ (Nat.zero_le _) harg
  exact Eq.trans (congrArg (Option.map _) h) rfl

/-- C5: the claim says the byte pair {mode = 00, r/m = 110} decodes to a
direct 16-bit absolute address, consuming 2 extra displacement bytes.  The
code decodes the bytes `0x88 0x06` (exactly that pair) into bare bit fields,
advances `PC` by exactly 2 — consuming no displacement bytes at all — and
returns an empty `Instruction`; no address operand of any kind is produced
(the `Instruction` struct has no fields). -/
theorem decode_direct_address_ignored :
    DecodeInatruction mov88 =
      Except.ok (⟨0b100010, 0, 0, 0b00, 0b000, 0b110⟩, { mov88 with PC := 2 }) :=
  rfl

/-- C6: the claim says the run loop always terminates in a defined terminal
state (halt, UnsupportedOpcode, OutOfBounds, ran-off-end) and reports it.
`Run` is `for { }`: an empty infinite loop whose trailing `return nil` is
unreachable.  In the fuel-indexed model, no amount of fuel ever produces a
result, on any state — the loop never reaches any terminal state. -/
theorem run_never_terminates : ∀ (c : CPU) (fuel : Nat), RunFuel c fuel = none := by
  intro c fuel
  induction fuel with
  | zero => rfl
  | succ n ih => exact ih

/-- C1: decoding one instruction extracts from the first fetched byte the
opcode-class as its top 6 bits (`b / 4`), the direction bit as bit 1
(`b / 2 % 2`) and the width bit as bit 0 (`b % 2`); from the second fetched
byte the mode as its top 2 bits (`b / 64`), the register selector as its
middle 3 bits (`b / 8 % 8`) and the register/memory selector as its low
3 bits (`b % 8`); and it advances the 16-bit program counter by exactly 2.
The hypotheses record that memory cells hold bytes (`< 256`), which Go's
`byte` element type guarantees. -/
theorem decode_extracts_bitfields (c : CPU)
    (hb0 : c.Memory c.PC < 256)
    (hb1 : c.Memory ((c.PC + 1) % 65536) < 256) :
    ∃ f c2, DecodeInatruction c = Except.ok (f, c2) ∧
      f.opcode = c.Memory c.PC / 4 ∧
      f.d = c.Memory c.PC / 2 % 2 ∧
      f.w = c.Memory c.PC % 2 ∧
      f.mod = c.Memory ((c.PC + 1) % 65536) / 64 ∧
      f.reg = c.Memory ((c.PC + 1) % 65536) / 8 % 8 ∧
      f.rm = c.Memory ((c.PC + 1) % 65536) % 8 ∧
      c2.PC = (c.PC + 2) % 65536 := by
  obtain ⟨e1, e2, e3, -, -, -⟩ := byteExtract _ hb0
  obtain ⟨-, -, -, e4, e5, e6⟩ := byteExtract _ hb1
  exact ⟨_, _, rfl, e1, e2, e3, e4, e5, e6,
    by show ((c.PC + 1) % 65536 + 1) % 65536 = (c.PC + 2) % 65536; omega⟩

/-- Witness for C1 at the concrete machine `mov88` (bytes `0x88 0x06`). -/
theorem decode_extracts_bitfields_witness :
    mov88.Memory mov88.PC < 256 ∧ mov88.Memory ((mov88.PC + 1) % 65536) < 256 ∧
    (∃ f c2, DecodeInatruction mov88 = Except.ok (f, c2) ∧
      f.opcode = mov88.Memory mov88.PC / 4 ∧
      f.d = mov88.Memory mov88.PC / 2 % 2 ∧
      f.w = mov88.Memory mov88.PC % 2 ∧
      f.mod = mov88.Memory ((mov88.PC + 1) % 65536) / 64 ∧
      f.reg = mov88.Memory ((mov88.PC + 1) % 65536) / 8 % 8 ∧
      f.rm = mov88.Memory ((mov88.PC + 1) % 65536) % 8 ∧
      c2.PC = (mov88.PC + 2) % 65536) :=
  ⟨by decide, by decide, decode_extracts_bitfields mov88 (by decide) (by decide)⟩

/-- C9: decoding one instruction is read-only except for the program counter:
memory and every register other than `PC` come out unchanged, and the only
state change is `PC` advancing (by 2, modulo 2^16). -/
theorem decode_mutates_only_pc (c : CPU) :
    ∃ f c2, DecodeInatruction c = Except.ok (f, c2) ∧
      c2.Memory = c.Memory ∧ c2.AX = c.AX ∧ c2.BX = c.BX ∧ c2.CX = c.CX ∧
      c2.DX = c.DX ∧ c2.SI = c.SI ∧ c2.DI = c.DI ∧ c2.BP = c.BP ∧
      c2.SP = c.SP ∧ c2.CS = c.CS ∧ c2.DS = c.DS ∧ c2.ES = c.ES ∧
      c2.SS = c.SS ∧ c2.IP = c.IP ∧ c2.FL = c.FL ∧ c2.Flag = c.Flag ∧
      c2.programSize = c.programSize ∧
      c2.PC = (c.PC + 2) % 65536 :=
  ⟨_, _, rfl, rfl, rfl, rfl, rfl, rfl, rfl, rfl, rfl, rfl, rfl, rfl, rfl, rfl,
    rfl, rfl, rfl, rfl,
    by show ((c.PC + 1) % 65536 + 1) % 65536 = (c.PC + 2) % 65536; omega⟩

/-- C10: with `PC` a 16-bit value, both of the decoder's fetch indices are
below 65536 and hence inside the 1,048,576-byte memory, so a program-counter
fetch can never go out of bounds; decoding succeeds and `PC` advances by 2
modulo 2^16, silently wrapping instead of signalling any condition. -/
theorem decode_fetches_in_bounds (c : CPU) (h : c.PC < 65536) :
    c.PC < memSize ∧ (c.PC + 1) % 65536 < memSize ∧
    ∃ f c2, DecodeInatruction c = Except.ok (f, c2) ∧
      c2.PC = (c.PC + 2) % 65536 := by
  refine ⟨?_, ?_, _, _, rfl, ?_⟩
  · show c.PC < 1048576
    omega
  · show (c.PC + 1) % 65536 < 1048576
    omega
  · show ((c.PC + 1) % 65536 + 1) % 65536 = (c.PC + 2) % 65536
    omega

/-- Witness for C10 at `cpuFF`, whose `PC` is `0xFFFF`: the fetches stay in
bounds and the program counter silently wraps to 1. -/
theorem decode_fetches_in_bounds_witness :
    cpuFF.PC < 65536 ∧
    (cpuFF.PC < memSize ∧ (cpuFF.PC + 1) % 65536 < memSize ∧
      ∃ f c2, DecodeInatruction cpuFF = Except.ok (f, c2) ∧
        c2.PC = (cpuFF.PC + 2) % 65536) ∧
    (cpuFF.PC + 2) % 65536 = 1 :=
  ⟨by decide, decode_fetches_in_bounds cpuFF (by decide), by decide⟩

/-- The high byte of a 16-bit value, as the getters compute it. -/
theorem highByte_eq (v : Nat) (hv : v < 65536) : (v >>> 8) % 256 = v / 256 := by
  rw [shr8_eq]
  omega

/-- Writing the low byte and then the high byte of a 16-bit value rebuilds
it: the raw register expression produced by a low-byte setter followed by a
high-byte setter. -/
theorem recompose_eq (v : Nat) (hv : v < 65536) :
    (((v &&& 0xFF00) ||| (v % 256)) &&& 0x00FF) ||| (((v / 256) <<< 8) % 65536) = v := by
  rw [spliceLow v (v % 256) (Nat.mod_lt _ (by norm_num)), spliceHigh _ _ (by omega)]
  omega

/-- A low-byte write reads back as the written byte. -/
theorem lowWrite_reads_back (x v : Nat) (hv : v < 256) :
    ((x &&& 0xFF00) ||| v) &&& 0xFF = v := by
  rw [spliceLow _ _ hv, and_FF_eq]
  omega

/-- A low-byte write leaves the sibling high byte untouched. -/
theorem lowWrite_keeps_high (x v : Nat) (hv : v < 256) :
    (((x &&& 0xFF00) ||| v) >>> 8) % 256 = (x >>> 8) % 256 := by
  rw [spliceLow _ _ hv, shr8_eq, shr8_eq]
  omega

/-- A high-byte write reads back as the written byte. -/
theorem highWrite_reads_back (x v : Nat) (hv : v < 256) :
    (((x &&& 0x00FF) ||| ((v <<< 8) % 65536)) >>> 8) % 256 = v := by
  rw [spliceHigh _ _ hv, shr8_eq]
  omega

/-- A high-byte write leaves the sibling low byte untouched. -/
theorem highWrite_keeps_low (x v : Nat) (hv : v < 256) :
    ((x &&& 0x00FF) ||| ((v <<< 8) % 65536)) &&& 0xFF = x &&& 0xFF := by
  rw [spliceHigh _ _ hv, and_FF_eq, and_FF_eq]
  omega

/-- C7: after writing a 16-bit value v into AX, AL reads back the low byte
`v % 256` and AH the high byte `v / 256`; writing that low byte and then that
high byte through the 8-bit setters reproduces the original 16-bit
composition — and the same holds for BX, CX and DX. -/
theorem subregister_aliasing (c : CPU) (v : Nat) (hv : v < 65536) :
    (getAL { c with AX := v } = v % 256 ∧
     getAH { c with AX := v } = v / 256 ∧
     (setAH (setAL { c with AX := v } (v % 256)) (v / 256)).AX = v) ∧
    (getBL { c with BX := v } = v % 256 ∧
     getBH { c with BX := v } = v / 256 ∧
     (setBH (setBL { c with BX := v } (v % 256)) (v / 256)).BX = v) ∧
    (getCL { c with CX := v } = v % 256 ∧
     getCH { c with CX := v } = v / 256 ∧
     (setCH (setCL { c with CX := v } (v % 256)) (v / 256)).CX = v) ∧
    (getDL { c with DX := v } = v % 256 ∧
     getDH { c with DX := v } = v / 256 ∧
     (setDH (setDL { c with DX := v } (v % 256)) (v / 256)).DX = v) :=
  ⟨⟨and_FF_eq v, highByte_eq v hv, recompose_eq v hv⟩,
   ⟨and_FF_eq v, highByte_eq v hv, recompose_eq v hv⟩,
   ⟨and_FF_eq v, highByte_eq v hv, recompose_eq v hv⟩,
   ⟨and_FF_eq v, highByte_eq v hv, recompose_eq v hv⟩⟩

/-- Witness for C7 at the zero machine and v = 0xABCD. -/
theorem subregister_aliasing_witness :
    (0xABCD : Nat) < 65536 ∧
    ((getAL { NewCPU with AX := 0xABCD } = 0xABCD % 256 ∧
      getAH { NewCPU with AX := 0xABCD } = 0xABCD / 256 ∧
      (setAH (setAL { NewCPU with AX := 0xABCD } (0xABCD % 256)) (0xABCD / 256)).AX = 0xABCD) ∧
     (getBL { NewCPU with BX := 0xABCD } = 0xABCD % 256 ∧
      getBH { NewCPU with BX := 0xABCD } = 0xABCD / 256 ∧
      (setBH (setBL { NewCPU with BX := 0xABCD } (0xABCD % 256)) (0xABCD / 256)).BX = 0xABCD) ∧
     (getCL { NewCPU with CX := 0xABCD } = 0xABCD % 256 ∧
      getCH { NewCPU with CX := 0xABCD } = 0xABCD / 256 ∧
      (setCH (setCL { NewCPU with CX := 0xABCD } (0xABCD % 256)) (0xABCD / 256)).CX = 0xABCD) ∧
     (getDL { NewCPU with DX := 0xABCD } = 0xABCD % 256 ∧
      getDH { NewCPU with DX := 0xABCD } = 0xABCD / 256 ∧
      (setDH (setDL { NewCPU with DX := 0xABCD } (0xABCD % 256)) (0xABCD / 256)).DX = 0xABCD)) :=
  ⟨by decide, subregister_aliasing NewCPU 0xABCD (by decide)⟩

/-- C8: each 8-bit setter writes its byte into the owning 16-bit register
(the written byte reads back, the sibling byte is preserved) and the
resulting state differs from the old one in that single 16-bit register
alone: the record-update equation says every other register, `PC`,
`programSize` and all of memory are untouched. -/
theorem setters_touch_single_register (c : CPU) (v : Nat) (hv : v < 256) :
    (getAL (setAL c v) = v ∧ getAH (setAL c v) = getAH c ∧
      setAL c v = { c with AX := (setAL c v).AX }) ∧
    (getAH (setAH c v) = v ∧ getAL (setAH c v) = getAL c ∧
      setAH c v = { c with AX := (setAH c v).AX }) ∧
    (getBL (setBL c v) = v ∧ getBH (setBL c v) = getBH c ∧
      setBL c v = { c with BX := (setBL c v).BX }) ∧
    (getBH (setBH c v) = v ∧ getBL (setBH c v) = getBL c ∧
      setBH c v = { c with BX := (setBH c v).BX }) ∧
    (getCL (setCL c v) = v ∧ getCH (setCL c v) = getCH c ∧
      setCL c v = { c with CX := (setCL c v).CX }) ∧
    (getCH (setCH c v) = v ∧ getCL (setCH c v) = getCL c ∧
      setCH c v = { c with CX := (setCH c v).CX }) ∧
    (getDL (setDL c v) = v ∧ getDH (setDL c v) = getDH c ∧
      setDL c v = { c with DX := (setDL c v).DX }) ∧
    (getDH (setDH c v) = v ∧ getDL (setDH c v) = getDL c ∧
      setDH c v = { c with DX := (setDH c v).DX }) :=
  ⟨⟨lowWrite_reads_back c.AX v hv, lowWrite_keeps_high c.AX v hv, rfl⟩,
   ⟨highWrite_reads_back c.AX v hv, highWrite_keeps_low c.AX v hv, rfl⟩,
   ⟨lowWrite_reads_back c.BX v hv, lowWrite_keeps_high c.BX v hv, rfl⟩,
   ⟨highWrite_reads_back c.BX v hv, highWrite_keeps_low c.BX v hv, rfl⟩,
   ⟨lowWrite_reads_back c.CX v hv, lowWrite_keeps_high c.CX v hv, rfl⟩,
   ⟨highWrite_reads_back c.CX v hv, highWrite_keeps_low c.CX v hv, rfl⟩,
   ⟨lowWrite_reads_back c.DX v hv, lowWrite_keeps_high c.DX v hv, rfl⟩,
   ⟨highWrite_reads_back c.DX v hv, highWrite_keeps_low c.DX v hv, rfl⟩⟩

/-- Witness for C8 at the zero machine and v = 0x5A. -/
theorem setters_touch_single_register_witness :
    (0x5A : Nat) < 256 ∧
    ((getAL (setAL NewCPU 0x5A) = 0x5A ∧ getAH (setAL NewCPU 0x5A) = getAH NewCPU ∧
       setAL NewCPU 0x5A = { NewCPU with AX := (setAL NewCPU 0x5A).AX }) ∧
     (getAH (setAH NewCPU 0x5A) = 0x5A ∧ getAL (setAH NewCPU 0x5A) = getAL NewCPU ∧
       setAH NewCPU 0x5A = { NewCPU with AX := (setAH NewCPU 0x5A).AX }) ∧
     (getBL (setBL NewCPU 0x5A) = 0x5A ∧ getBH (setBL NewCPU 0x5A) = getBH NewCPU ∧
       setBL NewCPU 0x5A = { NewCPU with BX := (setBL NewCPU 0x5A).BX }) ∧
     (getBH (setBH NewCPU 0x5A) = 0x5A ∧ getBL (setBH NewCPU 0x5A) = getBL NewCPU ∧
       setBH NewCPU 0x5A = { NewCPU with BX := (setBH NewCPU 0x5A).BX }) ∧
     (getCL (setCL NewCPU 0x5A) = 0x5A ∧ getCH (setCL NewCPU 0x5A) = getCH NewCPU ∧
       setCL NewCPU 0x5A = { NewCPU with CX := (setCL NewCPU 0x5A).CX }) ∧
     (getCH (setCH NewCPU 0x5A) = 0x5A ∧ getCL (setCH NewCPU 0x5A) = getCL NewCPU ∧
       setCH NewCPU 0x5A = { NewCPU with CX := (setCH NewCPU 0x5A).CX }) ∧
     (getDL (setDL NewCPU 0x5A) = 0x5A ∧ getDH (setDL NewCPU 0x5A) = getDH NewCPU ∧
       setDL NewCPU 0x5A = { NewCPU with DX := (setDL NewCPU 0x5A).DX }) ∧
     (getDH (setDH NewCPU 0x5A) = 0x5A ∧ getDL (setDH NewCPU 0x5A) = getDL NewCPU ∧
       setDH NewCPU 0x5A = { NewCPU with DX := (setDH NewCPU 0x5A).DX })) :=
  ⟨by decide, setters_touch_single_register NewCPU 0x5A (by decide)⟩

end I8086
